import Mathlib

/-!
Shallow embedding of the MoviePilot data-access layer
(`app/db/__init__.py` and `app/db/models/user.py`) and proofs about it.

Modelling conventions:
* A SQLAlchemy `Session` is identified by a natural number.  The observable
  session-lifecycle calls made by the decorator wrappers (`create`, `commit`,
  `rollback`, `close`) and the raw UPDATE statements issued by the propagation
  loops (`db.execute(update_statement)`) are recorded as `DbEvent`s, in the
  order the Python code performs them.
* Python exceptions are modelled with `Except Err`; re-raising the caught
  exception corresponds to returning the same `Err` value.
* Positional arguments `*args` are a `List Arg`, keyword arguments `**kwargs`
  an association list `List (String × Arg)` (Python dicts preserve insertion
  order and have unique keys).
* An ORM entity's column values are an association list `List (String × Value)`;
  `setattr` is `setField` (overwrite first occurrence, append if absent).
* The table registry `Base.metadata.tables` is a `Registry`:
  an ordered list of (table name, column names).
-/

namespace MoviePilotDB

/-- Runtime values stored in entity fields / compared by UPDATE statements. -/
inductive Value
  | str (v : String)
  | int (v : Int)
  | bool (v : Bool)
deriving DecidableEq

/-- Python exceptions surfaced by the data layer.  `validation` is the
`Exception("接收的参数不全")` raised by `relevancy_update`; `other` stands for
any exception raised by the wrapped operation or the store. -/
inductive Err
  | validation
  | other (code : Nat)
deriving DecidableEq

/-- One argument of a wrapped call: a session, Python `None`, or any other
(non-session) value. -/
inductive Arg
  | session (sid : Nat)
  | noneA
  | other (v : Nat)
deriving DecidableEq

/-- Observable calls on sessions and raw UPDATE statements. -/
inductive DbEvent
  | create (sid : Nat)
  | commit (sid : Nat)
  | rollback (sid : Nat)
  | close (sid : Nat)
  | execUpdate (tableName columnName : String) (oldValue newValue : Value)
deriving DecidableEq

/-- First `Session` among the positional arguments (`for arg in args: ...
break`). -/
def findSession : List Arg → Option Nat
  | [] => none
  | Arg.session s :: _ => some s
  | _ :: rest => findSession rest

/-- First `Session`-valued keyword argument (`for key, value in kwargs.items():
... break`). -/
def findSessionKw : List (String × Arg) → Option Nat
  | [] => none
  | (_, Arg.session s) :: _ => some s
  | _ :: rest => findSessionKw rest

/-- Python `get_args_db(args, kwargs)`: the kwargs scan runs after the args scan and
overwrites its result, so a session found in kwargs wins. -/
def get_args_db (args : List Arg) (kwargs : List (String × Arg)) : Option Nat :=
  match findSessionKw kwargs with
  | some s => some s
  | none => findSession args

/-- Python `kwargs and 'db' in kwargs` (non-empty ∧ has key, which is just
"has key `db`" since a dict containing `db` is non-empty). -/
def hasDbKey (kwargs : List (String × Arg)) : Bool :=
  kwargs.any fun kv => kv.1 = "db"

/-- Python `kwargs['db'] = db` (dict keys are unique, so mapping is faithful). -/
def setDbKey (kwargs : List (String × Arg)) (db : Nat) : List (String × Arg) :=
  kwargs.map fun kv => if kv.1 = "db" then (kv.1, Arg.session db) else kv

/-- Python `update_args_db(args, kwargs, db)`: write the session into the `db`
keyword slot when present; otherwise, when there is at least one positional
argument, into the first slot if it is `None`, else into the second slot
(`args = (args[0], db, *args[2:])`); with no positional arguments and no `db`
keyword, the arguments are returned unchanged. -/
def update_args_db (args : List Arg) (kwargs : List (String × Arg)) (db : Nat) :
    List Arg × List (String × Arg) :=
  if hasDbKey kwargs then (args, setDbKey kwargs db)
  else
    match args with
    | [] => ([], kwargs)
    | a0 :: rest =>
      if a0 = Arg.noneA then (Arg.session db :: rest, kwargs)
      else (a0 :: Arg.session db :: rest.tail, kwargs)

/-- Result of running a wrapped call: the returned-or-raised outcome together
with the session-lifecycle events performed by the wrapper itself. -/
structure WrapRun (A : Type) where
  result : Except Err A
  events : List DbEvent

/-- Arguments actually passed to the inner function by either wrapper:
unchanged when a session was found, else rewritten by `update_args_db` with
the freshly allocated session. -/
def effectiveArgs (args : List Arg) (kwargs : List (String × Arg)) (fresh : Nat) :
    List Arg × List (String × Arg) :=
  match get_args_db args kwargs with
  | some _ => (args, kwargs)
  | none => update_args_db args kwargs fresh

/-- The session the wrapper commits/rolls back on: the caller's if found,
else the freshly allocated one. -/
def sessionInUse (args : List Arg) (kwargs : List (String × Arg)) (fresh : Nat) : Nat :=
  (get_args_db args kwargs).getD fresh

/-- The `db_update` decorator.  `fresh` is the session id `ScopedSession()`
would hand out.  On success the wrapper commits the session in use; on any
exception it rolls back and re-raises the same exception; in the `finally`
block it closes the session only when it allocated it (`_close_db`). -/
def db_update {A : Type} (f : List Arg → List (String × Arg) → Except Err A)
    (args : List Arg) (kwargs : List (String × Arg)) (fresh : Nat) : WrapRun A :=
  match get_args_db args kwargs with
  | some s =>
    match f args kwargs with
    | Except.ok r => ⟨Except.ok r, [DbEvent.commit s]⟩
    | Except.error e => ⟨Except.error e, [DbEvent.rollback s]⟩
  | none =>
    let p := update_args_db args kwargs fresh
    match f p.1 p.2 with
    | Except.ok r =>
        ⟨Except.ok r, [DbEvent.create fresh, DbEvent.commit fresh, DbEvent.close fresh]⟩
    | Except.error e =>
        ⟨Except.error e, [DbEvent.create fresh, DbEvent.rollback fresh, DbEvent.close fresh]⟩

/-- The `db_query` decorator: same session acquisition and closing as
`db_update`, but it never commits nor rolls back; exceptions propagate
unchanged after the owned session is closed. -/
def db_query {A : Type} (f : List Arg → List (String × Arg) → Except Err A)
    (args : List Arg) (kwargs : List (String × Arg)) (fresh : Nat) : WrapRun A :=
  match get_args_db args kwargs with
  | some _ => ⟨f args kwargs, []⟩
  | none =>
    let p := update_args_db args kwargs fresh
    ⟨f p.1 p.2, [DbEvent.create fresh, DbEvent.close fresh]⟩

/-- True iff `evs` contains a `close` on session `s`. -/
def closes (evs : List DbEvent) (s : Nat) : Bool :=
  evs.any fun e => e = DbEvent.close s

/-- True iff `evs` contains a `commit` on session `s`. -/
def commits (evs : List DbEvent) (s : Nat) : Bool :=
  evs.any fun e => e = DbEvent.commit s

/-- True iff `evs` contains a `rollback` on session `s`. -/
def rollsBack (evs : List DbEvent) (s : Nat) : Bool :=
  evs.any fun e => e = DbEvent.rollback s

/-- Number of `create` events in `evs`. -/
def createCount (evs : List DbEvent) : Nat :=
  (evs.filter fun e => match e with | DbEvent.create _ => true | _ => false).length

/-- Number of `close` events in `evs`. -/
def closeCount (evs : List DbEvent) : Nat :=
  (evs.filter fun e => match e with | DbEvent.close _ => true | _ => false).length

/-- An ORM entity's current column values (`setattr`-able attribute map). -/
abbrev Entity := List (String × Value)

/-- The registry `Base.metadata.tables`: ordered list of (table name, column names). -/
abbrev Registry := List (String × List String)

/-- Python `setattr(self, k, v)`: overwrite the first binding of `k`, append when
absent. -/
def setField : Entity → String → Value → Entity
  | [], k, v => [(k, v)]
  | (k0, v0) :: rest, k, v =>
    if k0 = k then (k, v) :: rest else (k0, v0) :: setField rest k v

/-- Current value of field `k` (first binding). -/
def getField : Entity → String → Option Value
  | [], _ => none
  | (k0, v0) :: rest, k => if k0 = k then some v0 else getField rest k

/-- The primary-update loop: the null-valued keys are dropped from the payload
and each remaining key/value pair is assigned onto the entity in order. -/
def applyPayload (entity : Entity) : List (String × Option Value) → Entity
  | [] => entity
  | (_, none) :: rest => applyPayload entity rest
  | (k, some v) :: rest => applyPayload (setField entity k v) rest

/-- Python `Base.update(self, db, payload)`: drop null-valued keys, assign the rest,
re-attach if detached (persistence side, not modelled), return `True`. -/
def Base.update (entity : Entity) (payload : List (String × Option Value)) :
    Entity × Bool :=
  (applyPayload entity payload, true)

/-- Python `Base.delete(cls, db, rid)`: `db.query(cls).filter(and_(cls.id ==
rid)).delete()` then `return True`.  The table is the list of rows (id,
fields); the result is the surviving rows and the returned-or-raised outcome. -/
def Base.delete (rows : List (Nat × Entity)) (rid : Nat) :
    List (Nat × Entity) × Except Err Bool :=
  (rows.filter fun r => r.1 != rid, Except.ok true)

/-- One entry of `relation_info["column"]`.  The dict may carry both a
`tables` key and an `include_tables` key: the implementation reads
`item.get("tables", [])` whereas the docstring documents the key as
`include_tables`; both are kept as fields (absent key = `[]`). -/
structure ColumnItem where
  tables : List String
  include_tables : List String
  exclude_tables : List String
  old_value : Value
  new_value : Value
deriving DecidableEq

/-- The `relation_info` dict of `relevancy_update` (absent key = `[]`). -/
structure RelationInfo where
  include_tables : List String
  exclude_tables : List String
  column : List (String × ColumnItem)
deriving DecidableEq

/-- First-pass filter of `relevancy_update`: skip when `include_tables` is
non-empty and lacks the table, or `exclude_tables` is non-empty and holds it. -/
def topPass (ri : RelationInfo) (tname : String) : Bool :=
  !((!ri.include_tables.isEmpty && !ri.include_tables.contains tname) ||
    (!ri.exclude_tables.isEmpty && ri.exclude_tables.contains tname))

/-- Second-pass filter: the code reads `in_tables = item.get("tables", [])`
and `not_in_tables = item.get("exclude_tables", [])`. -/
def columnPass (tname : String) (item : ColumnItem) : Bool :=
  !((!item.tables.isEmpty && !item.tables.contains tname) ||
    (!item.exclude_tables.isEmpty && item.exclude_tables.contains tname))

/-- UPDATE statements issued by the propagation loop of `relevancy_update`:
for each registry table passing the first-pass filter, for each entry of
`relation_info["column"]` passing the second-pass filter whose column name is
among the table's columns, one
`table.update().where(table.c[column] == old_value).values(column=new_value)`. -/
def propagationEvents (registry : Registry) (ri : RelationInfo) : List DbEvent :=
  registry.flatMap fun tbl =>
    if topPass ri tbl.1 then
      ri.column.filterMap fun ci =>
        if columnPass tbl.1 ci.2 && tbl.2.contains ci.1 then
          some (DbEvent.execUpdate tbl.1 ci.1 ci.2.old_value ci.2.new_value)
        else none
    else []

/-- Outcome of `relevancy_update` / `update_all_username`: the
returned-or-raised value, the entity after the primary update, and the UPDATE
statements issued. -/
structure RUResult where
  result : Except Err Bool
  entity : Entity
  events : List DbEvent

/-- Python `Base.relevancy_update(self, db, payload, relation_info)`.
`relation_info = none` models a missing or empty (`not relation_info`) dict.
The validation check runs before any mutation, so on the error path the
entity is unchanged and no statement was issued. -/
def relevancy_update (registry : Registry) (entity : Entity)
    (payload : List (String × Option Value)) (relation_info : Option RelationInfo) :
    RUResult :=
  match relation_info with
  | none => ⟨Except.error Err.validation, entity, []⟩
  | some ri =>
    if payload.isEmpty then ⟨Except.error Err.validation, entity, []⟩
    else ⟨Except.ok true, applyPayload entity payload, propagationEvents registry ri⟩

/-- Python `User.update_all_username(self, db, payload, old_username, new_username)`.
Empty payload returns `False` (no exception).  The table guard is
`table_name == ('siteuserdata' or 'user')`, and the Python expression
`('siteuserdata' or 'user')` evaluates to `'siteuserdata'` (`or` yields its
first truthy operand), so the loop skips exactly the table named
`siteuserdata`; every other table with a `username` column receives one
UPDATE rewriting `old_username` to `new_username`. -/
def update_all_username (registry : Registry) (entity : Entity)
    (payload : List (String × Option Value)) (old_username new_username : Value) :
    RUResult :=
  if payload.isEmpty then ⟨Except.ok false, entity, []⟩
  else
    ⟨Except.ok true, applyPayload entity payload,
      registry.flatMap fun tbl =>
        if tbl.1 = "siteuserdata" then []
        else if tbl.2.contains "username" then
          [DbEvent.execUpdate tbl.1 "username" old_username new_username]
        else []⟩

/-- The columns of the `User` entity that `User.authenticate` consults. -/
structure UserRec where
  name : String
  hashed_password : String
  is_otp : Bool
  otp_secret : String
deriving DecidableEq

/-- Python `User.authenticate(db, name, password, otp_password)`.  The password and
OTP collaborators (`verify_password`, `OtpUtils.check`) are parameters; the
user table is the list of rows in store order (`first()` = first match); the
missing OTP code is the empty string (`not otp_password`). -/
def authenticate (verify_pw : String → String → Bool)
    (check_otp : String → String → Bool) (users : List UserRec)
    (name password otp_password : String) : Bool × Option UserRec :=
  match users.find? fun u => u.name == name with
  | none => (false, none)
  | some u =>
    if !verify_pw password u.hashed_password then (false, some u)
    else if u.is_otp && (otp_password == "" || !check_otp u.otp_secret otp_password) then
      (false, some u)
    else (true, some u)

/-! ### Helper lemmas about the argument scanners -/

theorem get_args_db_eq_none (args : List Arg) (kwargs : List (String × Arg)) :
    get_args_db args kwargs = none ↔
      findSessionKw kwargs = none ∧ findSession args = none := by
  unfold get_args_db
  cases h : findSessionKw kwargs <;> simp [h]

theorem findSessionKw_setDbKey (kwargs : List (String × Arg)) (db : Nat)
    (hk : hasDbKey kwargs = true) (hn : findSessionKw kwargs = none) :
    findSessionKw (setDbKey kwargs db) = some db := by
  induction kwargs with
  | nil => simp [hasDbKey] at hk
  | cons kv rest ih =>
    obtain ⟨k, a⟩ := kv
    by_cases hkdb : k = "db"
    · simp [setDbKey, hkdb, findSessionKw]
    · have ha : ∀ s, a ≠ Arg.session s := by
        intro s hs
        rw [hs] at hn
        simp [findSessionKw] at hn
      have hrest : findSessionKw rest = none := by
        cases a with
        | session s => exact absurd rfl (ha s)
        | noneA => simpa [findSessionKw] using hn
        | other v => simpa [findSessionKw] using hn
      have hkrest : hasDbKey rest = true := by
        simp [hasDbKey, hkdb] at hk
        simpa [hasDbKey] using hk
      have := ih hkrest hrest
      cases a with
      | session s => exact absurd rfl (ha s)
      | noneA => simpa [setDbKey, hkdb, findSessionKw] using this
      | other v => simpa [setDbKey, hkdb, findSessionKw] using this

theorem findSession_head_not_session (a0 : Arg) (rest : List Arg)
    (h : findSession (a0 :: rest) = none) : ∀ s, a0 ≠ Arg.session s := by
  intro s hs
  rw [hs] at h
  simp [findSession] at h

/-! ### Claim theorems: transaction wrappers -/

/-- C2 counterexample: `db_update` invoked with a caller-supplied session
(session 0 passed positionally) DOES commit that session on the success path,
contradicting "never committed". -/
theorem db_update_commits_borrowed_session :
    get_args_db [Arg.session 0] [] = some 0 ∧
    commits ((db_update (fun _ _ => Except.ok 1) [Arg.session 0] [] 5).events) 0 = true := by
  constructor
  · rfl
  · rfl

/-- C2 (amended): a caller-supplied session is never closed by `db_update`
nor by `db_query`, and `db_query` performs no commit/rollback/close on it at
all; `db_update`, however, commits the caller-supplied session on success and
rolls it back on failure. -/
theorem borrowed_session_never_closed {A : Type}
    (f g : List Arg → List (String × Arg) → Except Err A)
    (args : List Arg) (kwargs : List (String × Arg)) (fresh s : Nat)
    (h : get_args_db args kwargs = some s) :
    (∀ t, closes (db_update f args kwargs fresh).events t = false) ∧
    (db_query g args kwargs fresh).events = [] ∧
    (db_update f args kwargs fresh).events =
      (match f args kwargs with
       | Except.ok _ => [DbEvent.commit s]
       | Except.error _ => [DbEvent.rollback s]) := by
  refine ⟨?_, ?_, ?_⟩
  · intro t
    cases hf : f args kwargs <;> simp [db_update, h, hf, closes]
  · simp [db_query, h]
  · cases hf : f args kwargs <;> simp [db_update, h, hf]

/-- C2 witness: instantiation with a caller-supplied session (session 3 in
the `db` keyword slot). -/
theorem borrowed_session_never_closed_witness :
    (∀ t, closes (db_update (fun _ _ => Except.ok 1) [] [("db", Arg.session 3)] 5).events t
      = false) ∧
    (db_query (fun _ _ => Except.ok 2) [] [("db", Arg.session 3)] 5).events = [] := by
  have h := borrowed_session_never_closed (A := Nat)
    (fun _ _ => Except.ok 1) (fun _ _ => Except.ok 2) [] [("db", Arg.session 3)] 5 3 rfl
  exact ⟨h.1, h.2.1⟩

/-- C3: under `db_update`, if the inner operation returns normally the
wrapper commits the session in use and returns the inner result; if the inner
operation raises, the wrapper rolls back that session, commits nothing, and
re-raises the same exception unchanged. -/
theorem db_update_commit_on_ok_rollback_on_error {A : Type}
    (f : List Arg → List (String × Arg) → Except Err A)
    (args : List Arg) (kwargs : List (String × Arg)) (fresh : Nat) :
    (∀ r : A,
      f (effectiveArgs args kwargs fresh).1 (effectiveArgs args kwargs fresh).2 = Except.ok r →
      (db_update f args kwargs fresh).result = Except.ok r ∧
      commits (db_update f args kwargs fresh).events (sessionInUse args kwargs fresh) = true) ∧
    (∀ e : Err,
      f (effectiveArgs args kwargs fresh).1 (effectiveArgs args kwargs fresh).2
          = Except.error e →
      (db_update f args kwargs fresh).result = Except.error e ∧
      rollsBack (db_update f args kwargs fresh).events (sessionInUse args kwargs fresh)
          = true ∧
      (∀ t, commits (db_update f args kwargs fresh).events t = false)) := by
  cases hg : get_args_db args kwargs with
  | some s =>
    refine ⟨?_, ?_⟩
    · intro r hr
      simp [effectiveArgs, hg] at hr
      simp [db_update, hg, hr, commits, sessionInUse]
    · intro e he
      simp [effectiveArgs, hg] at he
      refine ⟨?_, ?_, ?_⟩
      · simp [db_update, hg, he]
      · simp [db_update, hg, he, rollsBack, sessionInUse]
      · intro t
        simp [db_update, hg, he, commits]
  | none =>
    refine ⟨?_, ?_⟩
    · intro r hr
      simp [effectiveArgs, hg] at hr
      simp [db_update, hg, hr, commits, sessionInUse]
    · intro e he
      simp [effectiveArgs, hg] at he
      refine ⟨?_, ?_, ?_⟩
      · simp [db_update, hg, he]
      · simp [db_update, hg, he, rollsBack, sessionInUse]
      · intro t
        simp [db_update, hg, he, commits]

/-- C3 witness: a failing inner operation under `db_update` with a
caller-supplied session: the error comes back unchanged, the session is
rolled back and nothing is committed. -/
theorem db_update_commit_on_ok_rollback_on_error_witness :
    (db_update (A := Nat) (fun _ _ => Except.error (Err.other 9))
        [Arg.session 4] [] 5).result = Except.error (Err.other 9) ∧
    rollsBack (db_update (A := Nat) (fun _ _ => Except.error (Err.other 9))
        [Arg.session 4] [] 5).events (sessionInUse [Arg.session 4] [] 5) = true ∧
    (∀ t, commits (db_update (A := Nat) (fun _ _ => Except.error (Err.other 9))
        [Arg.session 4] [] 5).events t = false) :=
  (db_update_commit_on_ok_rollback_on_error (A := Nat)
    (fun _ _ => Except.error (Err.other 9)) [Arg.session 4] [] 5).2 (Err.other 9) rfl

/-- C4: when no session is found among the arguments, both wrappers create
exactly one session, close exactly one, and the closed session is the created
one (`fresh`), on the success path and on the failure path alike. -/
theorem owned_session_one_create_one_close {A : Type}
    (f g : List Arg → List (String × Arg) → Except Err A)
    (args : List Arg) (kwargs : List (String × Arg)) (fresh : Nat)
    (h : get_args_db args kwargs = none) :
    createCount (db_update f args kwargs fresh).events = 1 ∧
    closeCount (db_update f args kwargs fresh).events = 1 ∧
    closes (db_update f args kwargs fresh).events fresh = true ∧
    createCount (db_query g args kwargs fresh).events = 1 ∧
    closeCount (db_query g args kwargs fresh).events = 1 ∧
    closes (db_query g args kwargs fresh).events fresh = true := by
  have hq : (db_query g args kwargs fresh).events
      = [DbEvent.create fresh, DbEvent.close fresh] := by
    simp [db_query, h]
  have hu : (db_update f args kwargs fresh).events
        = [DbEvent.create fresh, DbEvent.commit fresh, DbEvent.close fresh] ∨
      (db_update f args kwargs fresh).events
        = [DbEvent.create fresh, DbEvent.rollback fresh, DbEvent.close fresh] := by
    cases hf : f (update_args_db args kwargs fresh).1 (update_args_db args kwargs fresh).2
    case ok r => exact Or.inl (by simp [db_update, h, hf])
    case error e => exact Or.inr (by simp [db_update, h, hf])
  rcases hu with hu | hu <;>
    simp [hu, hq, createCount, closeCount, closes, List.filter, List.any]

/-- C4 witness: a call with no session anywhere in the arguments. -/
theorem owned_session_one_create_one_close_witness :
    createCount (db_update (A := Nat) (fun _ _ => Except.ok 0) [Arg.other 1] [] 8).events
        = 1 ∧
    closeCount (db_update (A := Nat) (fun _ _ => Except.ok 0) [Arg.other 1] [] 8).events
        = 1 := by
  have h := owned_session_one_create_one_close (A := Nat)
    (fun _ _ => Except.ok 0) (fun _ _ => Except.ok 0) [Arg.other 1] [] 8 rfl
  exact ⟨h.1, h.2.1⟩

/-- C5 counterexample: a wrapped call with no positional arguments and no
`db` keyword (e.g. `User.authenticate(name=..., password=..., otp_password=...)`
with all-keyword arguments): no session is found, yet `update_args_db`
substitutes nothing, so the inner operation still receives no session —
refuting "the inner operation always receives a session". -/
theorem update_args_db_no_slot_no_substitution :
    get_args_db [] [("name", Arg.other 1)] = none ∧
    update_args_db [] [("name", Arg.other 1)] 5 = ([], [("name", Arg.other 1)]) ∧
    get_args_db (effectiveArgs [] [("name", Arg.other 1)] 5).1
      (effectiveArgs [] [("name", Arg.other 1)] 5).2 = none := by
  refine ⟨rfl, ?_, rfl⟩
  rfl

/-- C5 (amended): when no session is found, the wrapper substitutes its
allocated session into the named `db` slot if present, else (when at least
one positional argument exists) into the first positional slot if that slot
is `None`, else into the second positional slot — and in each of those cases
the inner operation receives exactly the allocated session; but when there
are no positional arguments and no `db` keyword, the arguments are left
unchanged and no session is injected. -/
theorem update_args_db_placement
    (args : List Arg) (kwargs : List (String × Arg)) (db : Nat)
    (h : get_args_db args kwargs = none) :
    (hasDbKey kwargs = true →
      update_args_db args kwargs db = (args, setDbKey kwargs db)) ∧
    (hasDbKey kwargs = false → ∀ a0 rest, args = a0 :: rest →
      update_args_db args kwargs db =
        (if a0 = Arg.noneA then Arg.session db :: rest
         else a0 :: Arg.session db :: rest.tail, kwargs)) ∧
    (hasDbKey kwargs = false → args = [] →
      update_args_db args kwargs db = (args, kwargs)) ∧
    ((args ≠ [] ∨ hasDbKey kwargs = true) →
      get_args_db (update_args_db args kwargs db).1 (update_args_db args kwargs db).2
        = some db) := by
  obtain ⟨hkw, hargs⟩ := (get_args_db_eq_none args kwargs).mp h
  refine ⟨?_, ?_, ?_, ?_⟩
  · intro hk
    simp [update_args_db, hk]
  · intro hk a0 rest hcons
    subst hcons
    by_cases hnone : a0 = Arg.noneA <;> simp [update_args_db, hk, hnone]
  · intro hk hnil
    subst hnil
    simp [update_args_db, hk]
  · intro hor
    by_cases hk : hasDbKey kwargs = true
    · have hfk := findSessionKw_setDbKey kwargs db hk hkw
      simp [update_args_db, hk, get_args_db, hfk]
    · have hk' : hasDbKey kwargs = false := by simpa using hk
      cases args with
      | nil =>
        rcases hor with hne | htrue
        · exact absurd rfl hne
        · exact absurd htrue hk
      | cons a0 rest =>
        have ha0 := findSession_head_not_session a0 rest hargs
        by_cases hnone : a0 = Arg.noneA
        · simp [update_args_db, hk', hnone, get_args_db, hkw, findSession]
        · cases a0 with
          | session s => exact absurd rfl (ha0 s)
          | noneA => exact absurd rfl hnone
          | other v =>
            simp [update_args_db, hk', get_args_db, hkw, findSession]

/-- C5 witness: a bound-method-style call `entity.create()` (one positional
argument, the entity itself): the session lands in the second positional
slot and the inner operation receives it. -/
theorem update_args_db_placement_witness :
    update_args_db [Arg.other 1] [] 7 = ([Arg.other 1, Arg.session 7], []) ∧
    get_args_db (update_args_db [Arg.other 1] [] 7).1
      (update_args_db [Arg.other 1] [] 7).2 = some 7 := by
  have h := update_args_db_placement [Arg.other 1] [] 7 rfl
  refine ⟨?_, h.2.2.2 (Or.inl (by simp))⟩
  have h2 := h.2.1 rfl (Arg.other 1) [] rfl
  simpa using h2

/-! ### Helper lemmas about entity fields -/

theorem getField_setField (e : Entity) (k k2 : String) (v : Value) :
    getField (setField e k v) k2 = if k2 = k then some v else getField e k2 := by
  induction e with
  | nil =>
    by_cases hk : k2 = k
    · subst hk
      simp [setField, getField]
    · have hk' : k ≠ k2 := fun h => hk h.symm
      simp [setField, getField, hk, hk']
  | cons kv rest ih =>
    obtain ⟨k0, v0⟩ := kv
    by_cases h0 : k0 = k
    · subst h0
      by_cases hk : k2 = k0 <;> simp [setField, getField, hk, eq_comm]
    · by_cases hk : k2 = k
      · subst hk
        have h0' : k0 ≠ k2 := h0
        simp [setField, getField, h0, h0', ih]
      · by_cases h02 : k0 = k2 <;> simp [setField, getField, h0, h02, ih, hk]

theorem applyPayload_getField_of_not_set (p : List (String × Option Value)) (e : Entity)
    (k : String) (h : ∀ v, (k, some v) ∉ p) :
    getField (applyPayload e p) k = getField e k := by
  induction p generalizing e with
  | nil => rfl
  | cons kv rest ih =>
    obtain ⟨k0, ov⟩ := kv
    cases ov with
    | none =>
      exact ih e fun v hv => h v (List.mem_cons_of_mem _ hv)
    | some v0 =>
      have hk0 : k0 ≠ k := by
        intro hkk
        subst hkk
        exact h v0 (List.mem_cons_self _ _)
      have := ih (setField e k0 v0) fun v hv => h v (List.mem_cons_of_mem _ hv)
      rw [applyPayload, this, getField_setField]
      simp [Ne.symm hk0]

theorem applyPayload_getField_of_set (p : List (String × Option Value)) (e : Entity)
    (k : String) (v : Value) (hnodup : (p.map Prod.fst).Nodup)
    (hmem : (k, some v) ∈ p) :
    getField (applyPayload e p) k = some v := by
  induction p generalizing e with
  | nil => cases hmem
  | cons kv rest ih =>
    obtain ⟨k0, ov⟩ := kv
    simp only [List.map_cons] at hnodup
    have hnd := List.nodup_cons.mp hnodup
    rcases List.mem_cons.mp hmem with heq | hrest
    · have hk : k0 = k := by
        have := congrArg Prod.fst heq
        simpa using this.symm
      have hv : ov = some v := by
        have := congrArg Prod.snd heq
        simpa using this.symm
      subst hk
      rw [hv]
      have hnk : ∀ w, (k0, some w) ∉ rest := by
        intro w hw
        exact hnd.1 (by simpa using List.mem_map_of_mem Prod.fst hw)
      rw [applyPayload, applyPayload_getField_of_not_set rest _ k0 hnk,
        getField_setField]
      simp
    · cases ov with
      | none => exact ih e hnd.2 hrest
      | some v0 => exact ih (setField e k0 v0) hnd.2 hrest

/-! ### Claim theorems: entity operations -/

/-- C6: `relevancy_update` fails with the validation error whenever the
payload or the propagation spec is empty/missing, and on that path the
entity is unchanged and no UPDATE statement has been issued. -/
theorem relevancy_update_validation_no_mutation (registry : Registry) (entity : Entity)
    (payload : List (String × Option Value)) (relation_info : Option RelationInfo)
    (h : payload = [] ∨ relation_info = none) :
    (relevancy_update registry entity payload relation_info).result
        = Except.error Err.validation ∧
    (relevancy_update registry entity payload relation_info).entity = entity ∧
    (relevancy_update registry entity payload relation_info).events = [] := by
  rcases h with h | h
  · subst h
    cases relation_info <;> simp [relevancy_update]
  · subst h
    simp [relevancy_update]

/-- C6 witness: empty payload against a non-empty spec and registry. -/
theorem relevancy_update_validation_no_mutation_witness :
    (relevancy_update [("user", ["name"])] [("name", Value.str "x")] []
        (some { include_tables := [], exclude_tables := [],
                column := [("name",
                  { tables := [], include_tables := [], exclude_tables := [],
                    old_value := Value.str "x",
                    new_value := Value.str "y" })] })).result
      = Except.error Err.validation :=
  (relevancy_update_validation_no_mutation [("user", ["name"])]
    [("name", Value.str "x")] []
    (some { include_tables := [], exclude_tables := [],
            column := [("name",
              { tables := [], include_tables := [], exclude_tables := [],
                old_value := Value.str "x",
                new_value := Value.str "y" })] }) (Or.inl rfl)).1

/-- C7: `Base.update` assigns exactly the payload keys carrying non-null
values; a field whose payload value is null, or which is absent from the
payload, keeps its prior value; the call returns `True`. -/
theorem update_assigns_nonnull_keeps_null (entity : Entity)
    (payload : List (String × Option Value))
    (hnodup : (payload.map Prod.fst).Nodup) :
    (∀ k v, (k, some v) ∈ payload →
      getField (Base.update entity payload).1 k = some v) ∧
    (∀ k, (∀ v, (k, some v) ∉ payload) →
      getField (Base.update entity payload).1 k = getField entity k) ∧
    (Base.update entity payload).2 = true := by
  refine ⟨?_, ?_, rfl⟩
  · intro k v hmem
    exact applyPayload_getField_of_set payload entity k v hnodup hmem
  · intro k hnot
    exact applyPayload_getField_of_not_set payload entity k hnot

/-- C7 witness: `update(e, s, ⦃a: 1, b: null⦄)` yields `a == 1` with `b`
keeping its prior value. -/
theorem update_assigns_nonnull_keeps_null_witness :
    getField (Base.update [("a", Value.int 0), ("b", Value.str "x")]
      [("a", some (Value.int 1)), ("b", none)]).1 "a" = some (Value.int 1) ∧
    getField (Base.update [("a", Value.int 0), ("b", Value.str "x")]
      [("a", some (Value.int 1)), ("b", none)]).1 "b"
      = getField [("a", Value.int 0), ("b", Value.str "x")] "b" := by
  have h := update_assigns_nonnull_keeps_null
    [("a", Value.int 0), ("b", Value.str "x")]
    [("a", some (Value.int 1)), ("b", none)] (by decide)
  refine ⟨h.1 "a" (Value.int 1) (by simp), h.2.1 "b" ?_⟩
  intro v hv
  simp at hv

theorem filter_id_of_no_match (rows : List (Nat × Entity)) (rid : Nat)
    (h : ∀ r ∈ rows, r.1 ≠ rid) : (rows.filter fun r => r.1 != rid) = rows := by
  induction rows with
  | nil => rfl
  | cons r rest ih =>
    have hr : (r.1 != rid) = true := by simpa using h r (List.mem_cons_self r rest)
    simp [List.filter, hr, ih fun x hx => h x (List.mem_cons_of_mem _ hx)]

/-- C9: `Base.delete` returns `True` without raising for every id, and when
zero rows match the id the table is left exactly as it was: non-existence of
the target is success, not an error. -/
theorem delete_nonexistent_is_success (rows : List (Nat × Entity)) (rid : Nat)
    (h : ∀ r ∈ rows, r.1 ≠ rid) :
    (Base.delete rows rid).2 = Except.ok true ∧ (Base.delete rows rid).1 = rows := by
  exact ⟨rfl, filter_id_of_no_match rows rid h⟩

/-- C9 witness: `delete(s, 999999)` on an empty table. -/
theorem delete_nonexistent_is_success_witness :
    (Base.delete [] 999999).2 = Except.ok true ∧ (Base.delete [] 999999).1 = [] :=
  delete_nonexistent_is_success [] 999999 (by intro r hr; cases hr)

/-- C10: `User.authenticate` returns `(False, None)` exactly when no user
with the given name exists; when a user is found it is always returned as the
second component (never `None`), and the first component is `True` iff the
password verifies and, whenever `is_otp` is set, the OTP code is non-missing
and valid (so a failed password, or enabled OTP with a missing/invalid code,
yields `False` paired with the looked-up user). -/
theorem authenticate_cases (verify_pw check_otp : String → String → Bool)
    (users : List UserRec) (name password otp_password : String) :
    ((users.find? fun u => u.name == name) = none →
      authenticate verify_pw check_otp users name password otp_password
        = (false, none)) ∧
    (∀ u, (users.find? fun u => u.name == name) = some u →
      (authenticate verify_pw check_otp users name password otp_password).2 = some u ∧
      ((authenticate verify_pw check_otp users name password otp_password).1 = true ↔
        (verify_pw password u.hashed_password = true ∧
          (u.is_otp = true →
            (otp_password ≠ "" ∧ check_otp u.otp_secret otp_password = true))))) := by
  constructor
  · intro h
    simp [authenticate, h]
  · intro u hu
    cases hv : verify_pw password u.hashed_password with
    | false => simp [authenticate, hu, hv]
    | true =>
      cases ho : u.is_otp with
      | false => simp [authenticate, hu, hv, ho]
      | true =>
        by_cases hop : otp_password = ""
        · simp [authenticate, hu, hv, ho, hop]
        · cases hc : check_otp u.otp_secret otp_password with
          | false => simp [authenticate, hu, hv, ho, hop, hc]
          | true => simp [authenticate, hu, hv, ho, hop, hc]

/-- C10 witness: a user with OTP disabled and a matching password
authenticates successfully. -/
theorem authenticate_cases_witness :
    (authenticate (fun p h => p == h) (fun _ _ => false)
      [{ name := "alice", hashed_password := "pw", is_otp := false,
         otp_secret := "" }] "alice" "pw" "").1 = true := by
  have h := (authenticate_cases (fun p h => p == h) (fun _ _ => false)
    [{ name := "alice", hashed_password := "pw", is_otp := false, otp_secret := "" }]
    "alice" "pw" "").2
    { name := "alice", hashed_password := "pw", is_otp := false, otp_secret := "" }
    (by rfl)
  exact h.2.mpr ⟨by rfl, by intro hotp; cases hotp⟩

/-- Modelled from the spec: the second-pass (column-level) filter of
`relevancy_update` as documented by the function's own docstring and the
spec, which read the column item's `include_tables` key (the implementation
instead reads a `tables` key that the documented format never sets). -/
def columnPassDocumented (tname : String) (item : ColumnItem) : Bool :=
  !((!item.include_tables.isEmpty && !item.include_tables.contains tname) ||
    (!item.exclude_tables.isEmpty && item.exclude_tables.contains tname))

/-- Modelled from the spec: the UPDATE statements `relevancy_update` should
issue under the documented column-level filter. -/
def propagationEventsDocumented (registry : Registry) (ri : RelationInfo) :
    List DbEvent :=
  registry.flatMap fun tbl =>
    if topPass ri tbl.1 then
      ri.column.filterMap fun ci =>
        if columnPassDocumented tbl.1 ci.2 && tbl.2.contains ci.1 then
          some (DbEvent.execUpdate tbl.1 ci.1 ci.2.old_value ci.2.new_value)
        else none
    else []

/-- C1: with two registry tables `a`, `b` both having a `name` column and a
propagation spec in the documented format whose `name` entry carries
`include_tables = [a]` (and no `tables` key), the code issues an UPDATE
against table `b` as well, because line 255 reads `item.get("tables", [])`
while the docstring documents the key as `include_tables`; the documented
behaviour would update only table `a`. -/
theorem relevancy_update_ignores_column_include_tables :
    (relevancy_update [("a", ["name"]), ("b", ["name"])] [("name", Value.str "x")]
        [("name", some (Value.str "y"))]
        (some { include_tables := [], exclude_tables := [],
                column := [("name",
                  { tables := [], include_tables := ["a"], exclude_tables := [],
                    old_value := Value.str "x",
                    new_value := Value.str "y" })] })).events
      = [DbEvent.execUpdate "a" "name" (Value.str "x") (Value.str "y"),
         DbEvent.execUpdate "b" "name" (Value.str "x") (Value.str "y")] ∧
    propagationEventsDocumented [("a", ["name"]), ("b", ["name"])]
        { include_tables := [], exclude_tables := [],
          column := [("name",
            { tables := [], include_tables := ["a"], exclude_tables := [],
              old_value := Value.str "x",
              new_value := Value.str "y" })] }
      = [DbEvent.execUpdate "a" "name" (Value.str "x") (Value.str "y")] := by
  constructor
  · rfl
  · rfl

/-- C8 counterexample: with registry tables `siteuserdata` and `user`, both
carrying a `username` column, `update_all_username` skips `siteuserdata` and
rewrites `user` — the opposite of the claimed guard, because the Python
expression `('siteuserdata' or 'user')` evaluates to `'siteuserdata'`. -/
theorem update_all_username_guard_skips_siteuserdata :
    (update_all_username [("siteuserdata", ["username"]), ("user", ["username"])] []
        [("name", some (Value.str "n"))] (Value.str "o") (Value.str "n")).events
      = [DbEvent.execUpdate "user" "username" (Value.str "o") (Value.str "n")] := by
  rfl

/-- C8 (amended): the guard only ever compares the table name against
`siteuserdata` (Python's `('siteuserdata' or 'user')` evaluates to its first
truthy operand): for a non-empty payload, a table receives the UPDATE
rewriting `username` from `old_username` to `new_username` iff it is
registered with a `username` column and its name is not `siteuserdata` — in
particular the `user` table itself is not skipped. -/
theorem update_all_username_events (registry : Registry) (entity : Entity)
    (payload : List (String × Option Value)) (ou nu : Value)
    (h : payload ≠ []) (tname : String) :
    DbEvent.execUpdate tname "username" ou nu
        ∈ (update_all_username registry entity payload ou nu).events ↔
      (tname ≠ "siteuserdata" ∧ ∃ cols, (tname, cols) ∈ registry ∧ "username" ∈ cols) := by
  have hp : payload.isEmpty = false := by
    cases payload with
    | nil => exact absurd rfl h
    | cons a rest => rfl
  simp only [update_all_username, hp, Bool.false_eq_true, if_false, List.mem_flatMap]
  constructor
  · rintro ⟨tbl, htbl, hmem⟩
    by_cases h1 : tbl.1 = "siteuserdata"
    · simp [h1] at hmem
    · by_cases h2 : tbl.2.contains "username"
      · simp only [h1, if_false, h2, if_true] at hmem
        have htn : tname = tbl.1 := by
          cases hmem with
          | head => rfl
          | tail _ hmem2 => cases hmem2
        refine ⟨by rw [htn]; exact h1, tbl.2, ?_, by simpa using h2⟩
        rw [htn]
        exact htbl
      · simp only [h1, if_false, h2, if_true] at hmem
        cases hmem
  · rintro ⟨hne, cols, hmem, hcol⟩
    refine ⟨(tname, cols), hmem, ?_⟩
    simp [hne, List.elem_eq_mem, hcol]

/-- C8 witness: the `user` table (not named `siteuserdata`) with a
`username` column does receive the propagation UPDATE. -/
theorem update_all_username_events_witness :
    DbEvent.execUpdate "user" "username" (Value.str "o") (Value.str "n")
      ∈ (update_all_username [("siteuserdata", ["username"]), ("user", ["username"])] []
          [("name", some (Value.str "n"))] (Value.str "o") (Value.str "n")).events := by
  have h := update_all_username_events
    [("siteuserdata", ["username"]), ("user", ["username"])] []
    [("name", some (Value.str "n"))] (Value.str "o") (Value.str "n")
    (by intro hc; cases hc) "user"
  exact h.mpr ⟨by decide, ["username"], by simp, by simp⟩

end MoviePilotDB
